import Mathlib

/-!
Verification of the query-result cache and background refresh scheduler of a
metasearch engine.  The development shallowly embeds the two source modules
(`searx/search_database.py` and the scheduler loop of `searx/webapp.py`):
the Redis-backed store becomes an explicit `Store` value, the Python
functions become Lean functions over it, and Python exceptions become an
explicit error type returned through `Except`.
-/

set_option autoImplicit false

namespace Searx

/-- Modelled from the spec: `SearchQuery` (defined in `searx/query.py`, which is
not part of the embedded sources) carries the seven identity fields of a query:
free-text query string, list of requested engine names, category list (the
fingerprint uses the primary category, i.e. the head), language code,
safe-search level, page number, and optional time-range filter (`None` in
Python is `Option.none` here). -/
structure SearchQuery where
  query : String
  engines : List String
  categories : List String
  language : String
  safesearch : Nat
  pageno : Nat
  time_range : Option String
deriving DecidableEq, Repr

/-- Modelled from the spec: the search-data record built by
`search.create_search_data` (not part of the embedded sources) is a
`SearchQuery` together with its computed outputs: results, paging flag,
result count, answers, corrections, infoboxes, suggestions and the set of
unresponsive engines.  The output payloads are opaque to the cache, so they
are modelled as plain strings. -/
structure SearchData extends SearchQuery where
  results : List String
  paging : Bool
  results_number : Nat
  answers : List String
  corrections : List String
  infoboxes : List String
  suggestions : List String
  unresponsive_engines : List String
deriving DecidableEq, Repr

/-! ### Python string rendering

`make_key` builds the Redis key with `"...:{}:{}".format(...)`, which calls
`str` on every field.  For the fields that are already strings this is the
identity; for the integer fields it is decimal rendering; for the engine
list it is Python's `repr` of a list of strings. -/

/-- The decimal digit character for `d` (Python's rendering of one digit). -/
def pyDigit (d : Nat) : Char := Char.ofNat (48 + d)

/-- Decimal rendering with explicit fuel (structural recursion, so that the
kernel can evaluate concrete keys); `natChars` supplies enough fuel. -/
def natCharsCore : Nat → Nat → List Char
  | 0, _ => []
  | fuel + 1, n =>
    if n < 10 then [pyDigit n]
    else natCharsCore fuel (n / 10) ++ [pyDigit (n % 10)]

/-- Decimal rendering of a natural number, as Python's `str(int)` produces it
for non-negative integers. -/
def natChars (n : Nat) : List Char := natCharsCore (n + 1) n

/-- The fuel argument of `natCharsCore` is irrelevant as long as it exceeds
the number being rendered. -/
theorem natCharsCore_fuel (f g n : Nat) (hf : n < f) (hg : n < g) :
    natCharsCore f n = natCharsCore g n := by
  induction f generalizing g n with
  | zero => omega
  | succ f ih =>
    cases g with
    | zero => omega
    | succ g =>
      simp only [natCharsCore]
      by_cases h : n < 10
      · simp [h]
      · have hdiv : n / 10 < n := Nat.div_lt_self (by omega) (by omega)
        simp only [h, if_false]
        rw [ih g (n / 10) (by omega) (by omega)]

/-- The recursion equation of Python's decimal rendering. -/
theorem natChars_eq (n : Nat) :
    natChars n = if n < 10 then [pyDigit n]
      else natChars (n / 10) ++ [pyDigit (n % 10)] := by
  have hcore : ∀ m : Nat, natCharsCore (m + 1) m
      = if m < 10 then [pyDigit m]
        else natCharsCore m (m / 10) ++ [pyDigit (m % 10)] := fun _ => rfl
  by_cases h : n < 10
  · rw [natChars, hcore, if_pos h, if_pos h]
  · have hdiv : n / 10 < n := Nat.div_lt_self (by omega) (by omega)
    rw [natChars, hcore, if_neg h, if_neg h, natChars,
        natCharsCore_fuel n (n / 10 + 1) (n / 10) (by omega) (by omega)]

/-- `str(n)` for a non-negative Python integer. -/
def pyNatStr (n : Nat) : String := String.mk (natChars n)

/-- Modelled Python `repr` of a string that contains no quote, backslash or
other escaped characters: the string wrapped in single quotes.  (Python's
`repr` escapes quotes, backslashes and non-printable characters; the
injectivity theorem below only quantifies over plain strings, where this
model is exact.) -/
def wrapQ (s : String) : String := "'" ++ s ++ "'"

/-- The comma-separated interior of Python's `str` of a list of strings. -/
def pyStrInner : List String → String
  | [] => ""
  | [s] => wrapQ s
  | s :: rest => wrapQ s ++ ", " ++ pyStrInner rest

/-- Python's `str` of a list of plain strings: `['a', 'b']`. -/
def pyStrList (xs : List String) : String := "[" ++ pyStrInner xs ++ "]"

/-! ### The fingerprint encoder (`make_key`) -/

/-- The time-range normalisation performed at the top of `make_key`:
`if q.time_range is None: q.time_range = ""` mutates the argument. -/
def normQuery (q : SearchQuery) : SearchQuery :=
  if q.time_range = none then { q with time_range := some "" } else q

/-- The format string of `make_key`, applied to an already-normalised query
whose primary category is `c`. -/
def keyString (q : SearchQuery) (c : String) : String :=
  "SEARCH_HISTORY:" ++ q.query ++ ":" ++ pyStrList q.engines ++ ":" ++ c
    ++ ":" ++ q.language ++ ":" ++ pyNatStr q.safesearch ++ ":"
    ++ pyNatStr q.pageno ++ ":" ++ q.time_range.getD ""

/-- `make_key` from `searx/search_database.py`.  It first normalises a `None`
time range to `""` (mutating the caller's query object, which the result's
second component records), then formats the seven identity fields joined by
`:`.  `q.categories[0]` raises `IndexError` on an empty category list, which
the embedding models as `none`. -/
def make_key (q : SearchQuery) : Option (String × SearchQuery) :=
  match (normQuery q).categories with
  | [] => none
  | c :: _ => some (keyString (normQuery q) c, normQuery q)

/-- `make_key` applied to a full search-data record (Python accesses the same
seven attributes on it); the mutated record is returned alongside the key. -/
def make_keyD (d : SearchData) : Option (String × SearchData) :=
  (make_key d.toSearchQuery).map fun p => (p.1, { d with toSearchQuery := p.2 })

/-! ### The entry codec

The source serialises entries with `pickle.dumps(·, protocol=4)` and
deserialises with `pickle.loads`; both live in the Python standard library,
outside the embedded sources. -/

/-- A pickled blob: an opaque sequence of byte-sized tokens. -/
abbrev Bytes := List Nat

/-- Modelled from the spec: the Entry Codec (`pickle` in the source is
external library code) is a self-describing, structure-preserving binary
encoding of a `SearchData` record with an exact round-trip; malformed bytes
fail to decode.  Strings are length-prefixed character codes. -/
def encStr (s : String) : Bytes := s.data.length :: s.data.map Char.toNat

/-- Length-prefixed encoding of a list of strings. -/
def encStrs (xs : List String) : Bytes := xs.length :: (xs.map encStr).flatten

/-- Tagged encoding of an optional string. -/
def encOptStr : Option String → Bytes
  | none => [0]
  | some s => 1 :: encStr s

/-- Encoding of a boolean flag. -/
def encBool (b : Bool) : Bytes := [if b then 1 else 0]

/-- The full encoding of a cache entry, field by field. -/
def pickle_dumps (d : SearchData) : Bytes :=
  encStr d.query ++ encStrs d.engines ++ encStrs d.categories
    ++ encStr d.language ++ [d.safesearch] ++ [d.pageno]
    ++ encOptStr d.time_range ++ encStrs d.results ++ encBool d.paging
    ++ [d.results_number] ++ encStrs d.answers ++ encStrs d.corrections
    ++ encStrs d.infoboxes ++ encStrs d.suggestions
    ++ encStrs d.unresponsive_engines

/-- Consume exactly `n` tokens from the front of a blob. -/
def takeExact : Nat → Bytes → Option (Bytes × Bytes)
  | 0, b => some ([], b)
  | _ + 1, [] => none
  | n + 1, x :: r => (takeExact n r).map fun p => (x :: p.1, p.2)

/-- Decode one token. -/
def decNat : Bytes → Option (Nat × Bytes)
  | [] => none
  | n :: r => some (n, r)

/-- Decode one length-prefixed string. -/
def decStr (b : Bytes) : Option (String × Bytes) := do
  let (n, r) ← decNat b
  let (cs, rest) ← takeExact n r
  pure (String.mk (cs.map Char.ofNat), rest)

/-- Decode `n` consecutive strings. -/
def decStrsN : Nat → Bytes → Option (List String × Bytes)
  | 0, b => some ([], b)
  | n + 1, b => do
    let (s, r) ← decStr b
    let (ss, rest) ← decStrsN n r
    pure (s :: ss, rest)

/-- Decode a length-prefixed list of strings. -/
def decStrs (b : Bytes) : Option (List String × Bytes) := do
  let (n, r) ← decNat b
  decStrsN n r

/-- Decode a tagged optional string. -/
def decOptStr (b : Bytes) : Option (Option String × Bytes) := do
  let (t, r) ← decNat b
  match t with
  | 0 => pure (none, r)
  | 1 => do
    let (s, rest) ← decStr r
    pure (some s, rest)
  | _ => none

/-- Decode a boolean flag. -/
def decBool (b : Bytes) : Option (Bool × Bytes) := do
  let (t, r) ← decNat b
  match t with
  | 0 => pure (false, r)
  | 1 => pure (true, r)
  | _ => none

/-- Decode a full cache entry; trailing bytes are ignored, as `pickle.loads`
stops at the terminating opcode. -/
def pickle_loads (b : Bytes) : Option SearchData := do
  let (query, b) ← decStr b
  let (engines, b) ← decStrs b
  let (categories, b) ← decStrs b
  let (language, b) ← decStr b
  let (safesearch, b) ← decNat b
  let (pageno, b) ← decNat b
  let (time_range, b) ← decOptStr b
  let (results, b) ← decStrs b
  let (paging, b) ← decBool b
  let (results_number, b) ← decNat b
  let (answers, b) ← decStrs b
  let (corrections, b) ← decStrs b
  let (infoboxes, b) ← decStrs b
  let (suggestions, b) ← decStrs b
  let (unresponsive_engines, _) ← decStrs b
  pure { query, engines, categories, language, safesearch, pageno, time_range,
         results, paging, results_number, answers, corrections, infoboxes,
         suggestions, unresponsive_engines }

/-! ### The Redis store

A single sequential state stands for the external key-value service: the
`SEARCH_HISTORY_INDEX` counter, the `SEARCH_HISTORY_KEYS` sorted set
(member key mapped to its score) and the per-key string data. -/

/-- Look a key up in an association list (Redis `GET` / sorted-set score). -/
def getA {α : Type} : List (String × α) → String → Option α
  | [], _ => none
  | (k0, v0) :: rest, k => if k = k0 then some v0 else getA rest k

/-- Insert or overwrite a key in an association list (Redis `SET`, and the
member-score upsert of `ZADD`). -/
def setA {α : Type} : List (String × α) → String → α → List (String × α)
  | [], k, v => [(k, v)]
  | (k0, v0) :: rest, k, v =>
    if k = k0 then (k, v) :: rest else (k0, v0) :: setA rest k v

/-- Insert one member into a score-sorted list (members with equal or larger
scores stay behind it, preserving insertion order on ties as Redis never
produces score ties here). -/
def insertByScore (p : String × Nat) : List (String × Nat) → List (String × Nat)
  | [] => [p]
  | q :: rest => if p.2 < q.2 then p :: q :: rest else q :: insertByScore p rest

/-- Sort the sorted-set representation by ascending score. -/
def sortByScore : List (String × Nat) → List (String × Nat)
  | [] => []
  | p :: rest => insertByScore p (sortByScore rest)

/-- Redis `ZRANGE setKey start stop` for non-negative ranks: the members with
rank `start` through `stop` inclusive, in ascending score order. -/
def zrange (idx : List (String × Nat)) (start stop : Nat) : List String :=
  (((sortByScore idx).map Prod.fst).drop start).take (stop + 1 - start)

/-- The whole store state shared by the foreground and the scheduler. -/
structure Store where
  counter : Nat
  index : List (String × Nat)
  data : List (String × Bytes)
deriving DecidableEq, Repr

/-- The store before any save: counter unset (Redis `INCR` of a missing key
yields 1), empty sorted set, no data. -/
def store0 : Store := { counter := 0, index := [], data := [] }

/-- The Python exceptions the embedded functions can raise. -/
inductive Err where
  /-- `IndexError` from `q.categories[0]` on an empty category list. -/
  | indexError
  /-- `pickle.loads` failure on bytes that are not a valid encoding. -/
  | unpicklingError
  /-- `pickle.loads(None)` when a pipelined `GET` found no value. -/
  | typeError
  /-- `AttributeError`: attribute assignment on `None`. -/
  | attributeNone
deriving DecidableEq, Repr

/-- `read` from `searx/search_database.py`: compute the key, `GET` it, return
`None` for a missing (or empty, hence falsy) value, otherwise unpickle. -/
def read (st : Store) (q : SearchQuery) : Except Err (Option SearchData) :=
  match make_key q with
  | none => .error .indexError
  | some (key, _) =>
    match getA st.data key with
    | none => .ok none
    | some response =>
      if response = [] then .ok none
      else
        match pickle_loads response with
        | none => .error .unpicklingError
        | some d => .ok (some d)

/-- `save` from `searx/search_database.py`: compute the key (normalising the
entry's time range in place), `INCR` the shared counter, `ZADD` the key with
the new counter value as score, then `SET` the pickled entry. -/
def save (st : Store) (d : SearchData) : Except Err Store :=
  match make_keyD d with
  | none => .error .indexError
  | some (key, d') =>
    let history := st.counter + 1
    .ok { counter := history,
          index := setA st.index key history,
          data := setA st.data key (pickle_dumps d') }

/-- The per-row body of `get_twenty_queries`: pipelined `GET` of every key,
then `pickle.loads(row)` — a missing value surfaces as `TypeError`, bad bytes
as an unpickling error — and projection onto the `SearchQuery` fields. -/
def getRows (st : Store) : List String → Except Err (List SearchQuery)
  | [] => .ok []
  | key :: rest =>
    match getA st.data key with
    | none => .error .typeError
    | some row =>
      match pickle_loads row with
      | none => .error .unpicklingError
      | some d => (getRows st rest).map (d.toSearchQuery :: ·)

/-- `get_twenty_queries` from `searx/search_database.py`: `ZRANGE` of the
ordering index from `x` to `x + 20` (both ends inclusive), an early empty
return when no keys fall in the range, otherwise a pipelined fetch of every
key and reconstruction of each entry's `SearchQuery`. -/
def get_twenty_queries (st : Store) (x : Nat) : Except Err (List SearchQuery) :=
  let keys := zrange st.index x (x + 20)
  if keys = [] then .ok []
  else getRows st keys

/-- `update` from `searx/search_database.py`: recompute the key, re-read the
stored entry, copy the eight output fields of `d` onto it and write it back.
When nothing is stored under the key, `read` returns `None` and the first
attribute assignment raises `AttributeError`. -/
def update (st : Store) (d : SearchData) : Except Err Store :=
  match make_keyD d with
  | none => .error .indexError
  | some (key, d') =>
    match read st d'.toSearchQuery with
    | .error e => .error e
    | .ok none => .error .attributeNone
    | .ok (some current) =>
      let merged : SearchData :=
        { current with
          results := d.results, paging := d.paging,
          results_number := d.results_number, answers := d.answers,
          corrections := d.corrections, infoboxes := d.infoboxes,
          suggestions := d.suggestions,
          unresponsive_engines := d.unresponsive_engines }
      .ok { st with data := setA st.data key (pickle_dumps merged) }

/-! ### The refresh scheduler (`searx/webapp.py`)

`update_results` walks the index with a cursor `x`; after each batch it
advances the cursor by the batch length, and when a batch holds fewer than 20
entries it resets the cursor to 0 and calls `wait_updating`.  `wait_updating`
sleeps for the configured cycle time minus the elapsed seconds, when that is
positive. -/

/-- One post-batch cursor step of `update_results`: `x += len(queries)`, then
`if len(queries) < 20: x = 0` and the loop waits.  Returns the new cursor and
whether the loop entered its waiting phase. -/
def schedStep (x batchLen : Nat) : Nat × Bool :=
  let x' := x + batchLen
  if batchLen < 20 then (0, true) else (x', false)

/-- `wait_updating`: with `target` the configured
`settings['redis']['upgrade_history']` and `elapsed` the truncated seconds
since the cycle started, block for `target - elapsed` seconds when positive
(`some` duration), otherwise return without sleeping (`none`). -/
def wait_updating (target elapsed : Int) : Option Int :=
  let wait := target - elapsed
  if wait > 0 then some wait else none

/-! ### Decidable equality on results -/

instance {ε α : Type} [DecidableEq ε] [DecidableEq α] :
    DecidableEq (Except ε α) := fun x y =>
  match x, y with
  | .ok a, .ok b =>
    if h : a = b then isTrue (by rw [h]) else isFalse (by simp [h])
  | .error a, .error b =>
    if h : a = b then isTrue (by rw [h]) else isFalse (by simp [h])
  | .ok _, .error _ => isFalse (by simp)
  | .error _, .ok _ => isFalse (by simp)

/-! ### Codec round-trip lemmas -/

theorem mk_data (s : String) : String.mk s.data = s := rfl

theorem takeExact_append (xs r : Bytes) :
    takeExact xs.length (xs ++ r) = some (xs, r) := by
  induction xs with
  | nil => rfl
  | cons x xs ih => simp [takeExact, ih]

theorem decStr_enc (s : String) (r : Bytes) :
    decStr (encStr s ++ r) = some (s, r) := by
  have h1 : encStr s ++ r = (s.data.map Char.toNat).length
      :: (s.data.map Char.toNat ++ r) := by
    simp [encStr]
  rw [decStr, h1]
  have h2 : takeExact s.length (List.map Char.toNat s.data ++ r)
      = some (List.map Char.toNat s.data, r) := by
    have h3 : s.length = (List.map Char.toNat s.data).length := by
      rw [List.length_map]; rfl
    rw [h3, takeExact_append]
  simp [decNat, h2, List.map_map, Function.comp_def, Char.ofNat_toNat, mk_data]

theorem decStrsN_enc (xs : List String) (r : Bytes) :
    decStrsN xs.length ((xs.map encStr).flatten ++ r) = some (xs, r) := by
  induction xs generalizing r with
  | nil => rfl
  | cons x xs ih =>
    simp [decStrsN, List.append_assoc, decStr_enc, ih]

theorem decStrs_enc (xs : List String) (r : Bytes) :
    decStrs (encStrs xs ++ r) = some (xs, r) := by
  simp [decStrs, encStrs, decNat, decStrsN_enc]

theorem decOptStr_enc (o : Option String) (r : Bytes) :
    decOptStr (encOptStr o ++ r) = some (o, r) := by
  cases o with
  | none => rfl
  | some s => simp [decOptStr, encOptStr, decNat, decStr_enc]

theorem decBool_enc (b : Bool) (r : Bytes) :
    decBool (encBool b ++ r) = some (b, r) := by
  cases b <;> rfl

theorem decNat_cons (n : Nat) (r : Bytes) : decNat (n :: r) = some (n, r) := rfl

theorem obind_eq {a b : Type} (x : Option a) (v : a) (k : a → Option b)
    (h : x = some v) : (x >>= k) = k v := by
  rw [h]; rfl

/-- C7: the entry codec round-trips exactly: decoding an encoded entry (with
any trailing bytes, which `pickle.loads` ignores) yields the entry back. -/
theorem pickle_roundtrip_rest (d : SearchData) (r : Bytes) :
    pickle_loads (pickle_dumps d ++ r) = some d := by
  have hb : pickle_dumps d ++ r = encStr d.query ++ (encStrs d.engines
      ++ (encStrs d.categories ++ (encStr d.language ++ ([d.safesearch]
      ++ ([d.pageno] ++ (encOptStr d.time_range ++ (encStrs d.results
      ++ (encBool d.paging ++ ([d.results_number] ++ (encStrs d.answers
      ++ (encStrs d.corrections ++ (encStrs d.infoboxes
      ++ (encStrs d.suggestions
      ++ (encStrs d.unresponsive_engines ++ r)))))))))))))) := by
    simp [pickle_dumps, List.append_assoc]
  rw [pickle_loads, hb]
  refine (obind_eq _ _ _ (decStr_enc _ _)).trans ?_
  refine (obind_eq _ _ _ (decStrs_enc _ _)).trans ?_
  refine (obind_eq _ _ _ (decStrs_enc _ _)).trans ?_
  refine (obind_eq _ _ _ (decStr_enc _ _)).trans ?_
  refine (obind_eq _ _ _ (decNat_cons _ _)).trans ?_
  refine (obind_eq _ _ _ (decNat_cons _ _)).trans ?_
  refine (obind_eq _ _ _ (decOptStr_enc _ _)).trans ?_
  refine (obind_eq _ _ _ (decStrs_enc _ _)).trans ?_
  refine (obind_eq _ _ _ (decBool_enc _ _)).trans ?_
  refine (obind_eq _ _ _ (decNat_cons _ _)).trans ?_
  refine (obind_eq _ _ _ (decStrs_enc _ _)).trans ?_
  refine (obind_eq _ _ _ (decStrs_enc _ _)).trans ?_
  refine (obind_eq _ _ _ (decStrs_enc _ _)).trans ?_
  refine (obind_eq _ _ _ (decStrs_enc _ _)).trans ?_
  refine (obind_eq _ _ _ (decStrs_enc _ _)).trans ?_
  rfl

/-- C7 in the form the spec states it: `decode(encode(e)) == e`. -/
theorem pickle_roundtrip (d : SearchData) :
    pickle_loads (pickle_dumps d) = some d := by
  have h := pickle_roundtrip_rest d []
  rwa [List.append_nil] at h

/-! ### Association-list and fingerprint lemmas -/

theorem getA_setA_same {α : Type} (l : List (String × α)) (k : String) (v : α) :
    getA (setA l k v) k = some v := by
  induction l with
  | nil => simp [setA, getA]
  | cons p rest ih =>
    by_cases h : k = p.1
    · simp [setA, getA, h]
    · simp [setA, getA, h, ih]

/-- `make_key` leaves an already-normalised query unchanged, so applying it to
the query it returned yields the same key and query again. -/
theorem normQuery_idem (q : SearchQuery) :
    normQuery (normQuery q) = normQuery q := by
  unfold normQuery
  by_cases ht : q.time_range = none <;> simp [ht]

theorem make_key_idem (q : SearchQuery) (k : String) (q' : SearchQuery)
    (h : make_key q = some (k, q')) : make_key q' = some (k, q') := by
  unfold make_key at h ⊢
  cases hc : (normQuery q).categories with
  | nil => rw [hc] at h; simp at h
  | cons c rest =>
    rw [hc] at h
    simp only [Option.some.injEq, Prod.mk.injEq] at h
    obtain ⟨hk, hq⟩ := h
    rw [← hq, normQuery_idem, hc]
    simp [hk]

/-- The key and normalised record that `make_keyD` returns restrict to what
`make_key` returns on the record's query part. -/
theorem make_keyD_toSearchQuery (d : SearchData) (k : String) (d' : SearchData)
    (h : make_keyD d = some (k, d')) :
    make_key d.toSearchQuery = some (k, d'.toSearchQuery) := by
  unfold make_keyD at h
  cases hm : make_key d.toSearchQuery with
  | none => rw [hm] at h; exact absurd h (by simp)
  | some p =>
    rw [hm] at h
    have h2 : (some (p.1, { d with toSearchQuery := p.2 }) : Option (String × SearchData))
        = some (k, d') := h
    injection h2 with h3
    have h4 : p.1 = k := congrArg Prod.fst h3
    have h5 : ({ d with toSearchQuery := p.2 } : SearchData) = d' :=
      congrArg Prod.snd h3
    rw [← h4, ← h5]

/-! ### C3: update on a fingerprint never saved fails, and the failure is
surfaced -/

/-- C3: for every store state and entry whose fingerprint key holds no stored
value, `update` fails with the surfaced `AttributeError` on `None` (the
code's realisation of `EntryNotFound`); no entry is created. -/
theorem update_missing_fails (st : Store) (d : SearchData) (k : String)
    (d' : SearchData) (hk : make_keyD d = some (k, d'))
    (habsent : getA st.data k = none) :
    update st d = .error .attributeNone := by
  have hq : make_key d'.toSearchQuery = some (k, d'.toSearchQuery) :=
    make_key_idem _ _ _ (make_keyD_toSearchQuery d k d' hk)
  have hread : read st d'.toSearchQuery = .ok none := by
    simp only [read, hq, habsent]
  simp only [update, hk, hread]

/-- A sample entry used to instantiate theorems with hypotheses. -/
def sampleEntry : SearchData :=
  { query := "w", engines := ["e"], categories := ["c"], language := "en",
    safesearch := 0, pageno := 1, time_range := some "", results := [],
    paging := false, results_number := 0, answers := [], corrections := [],
    infoboxes := [], suggestions := [], unresponsive_engines := [] }

/-- C3 witness: updating the empty store fails with the surfaced error. -/
theorem update_missing_fails_witness :
    update store0 sampleEntry = .error .attributeNone :=
  update_missing_fails store0 sampleEntry "SEARCH_HISTORY:w:['e']:c:en:0:1:"
    sampleEntry (by decide) (by decide)

/-! ### C10: update touches neither the ordering index nor the counter -/

/-- C10: whenever `update` succeeds it writes only the value stored under the
entry's fingerprint key: the ordering index and the sequence counter of the
resulting store are unchanged (and a failing `update` changes nothing at
all, as it returns no store). -/
theorem update_preserves_index (st : Store) (d : SearchData) (st' : Store)
    (h : update st d = .ok st') :
    st'.index = st.index ∧ st'.counter = st.counter := by
  unfold update at h
  split at h
  · simp at h
  · split at h
    · simp at h
    · simp at h
    · injection h with h2
      rw [← h2]
      exact ⟨rfl, rfl⟩

/-! ### C9: the refresh scheduler's transition to waiting -/

/-- C9: the loop of `update_results` enters its waiting phase exactly when a
batch holds fewer than 20 entries, resetting the cursor to 0 there and
otherwise advancing it by the batch length; `wait_updating` sleeps for the
configured cycle time minus the elapsed time exactly when that difference is
positive, and returns without sleeping once the elapsed time reaches it. -/
theorem scheduler_waiting_behavior (x n : Nat) (target elapsed : Int) :
    ((schedStep x n).2 = true ↔ n < 20)
    ∧ (n < 20 → schedStep x n = (0, true))
    ∧ (20 ≤ n → schedStep x n = (x + n, false))
    ∧ (0 < target - elapsed →
        wait_updating target elapsed = some (target - elapsed))
    ∧ (target ≤ elapsed → wait_updating target elapsed = none) := by
  refine ⟨?_, ?_, ?_, ?_, ?_⟩
  · by_cases hn : n < 20 <;> simp [schedStep, hn]
  · intro h; simp [schedStep, h]
  · intro h; simp [schedStep, Nat.not_lt.mpr h]
  · intro h; simp only [wait_updating]; rw [if_pos h]
  · intro h; simp only [wait_updating]; rw [if_neg (by omega)]

/-- C9 witness: a batch of 5 entries sends the scheduler to waiting with the
cursor reset, and with 10 seconds configured and 4 elapsed it sleeps for
`10 - 4` seconds. -/
theorem scheduler_waiting_behavior_witness :
    schedStep 3 5 = (0, true) ∧ wait_updating 10 4 = some (10 - 4) :=
  ⟨(scheduler_waiting_behavior 3 5 10 4).2.1 (by decide),
   (scheduler_waiting_behavior 3 5 10 4).2.2.2.1 (by decide)⟩

/-- The store after saving the sample entry once. -/
def stSaved : Store := ((save store0 sampleEntry).toOption).getD store0

/-- The store after saving the sample entry twice. -/
def stSaved2 : Store := ((save stSaved sampleEntry).toOption).getD store0

/-- The store after saving and then updating the sample entry. -/
def stUpdated : Store := ((update stSaved sampleEntry).toOption).getD store0

/-- C10 witness: a successful update after one save leaves the ordering index
and the counter exactly as the save left them. -/
theorem update_preserves_index_witness :
    stUpdated.index = stSaved.index ∧ stUpdated.counter = stSaved.counter :=
  update_preserves_index stSaved sampleEntry stUpdated (by decide)

/-! ### C4: read on a miss and on corrupt bytes -/

/-- A store whose only stored value is a blob that fails to unpickle. -/
def corruptStore : Store :=
  { counter := 1,
    index := [("SEARCH_HISTORY:w:['e']:c:en:0:1:", 1)],
    data := [("SEARCH_HISTORY:w:['e']:c:en:0:1:", [1])] }

/-- C4 counterexample: on stored bytes that fail to decode, `read` raises the
unpickling error to the caller instead of treating it as a miss. -/
theorem read_corrupt_counterexample :
    read corruptStore sampleEntry.toSearchQuery = .error .unpicklingError
    ∧ read corruptStore sampleEntry.toSearchQuery ≠ .ok none := by
  constructor <;> decide

/-- C4 amended: `read` returns absent when nothing (or an empty, hence falsy,
blob) is stored under the query's fingerprint; when a stored non-empty blob
fails to decode, the decode error propagates to the caller instead of being
treated as a miss. -/
theorem read_miss_and_corrupt (st : Store) (q : SearchQuery) (k : String)
    (q' : SearchQuery) (hk : make_key q = some (k, q')) :
    (getA st.data k = none → read st q = .ok none)
    ∧ (getA st.data k = some [] → read st q = .ok none)
    ∧ (∀ b : Bytes, getA st.data k = some b → b ≠ [] → pickle_loads b = none →
        read st q = .error .unpicklingError) := by
  refine ⟨?_, ?_, ?_⟩
  · intro h; simp only [read, hk, h]
  · intro h; simp [read, hk, h]
  · intro b hb hbne hd
    simp only [read, hk, hb]
    rw [if_neg hbne, hd]

/-- C4 witness: a miss on the empty store reads as absent, and the corrupt
blob store raises the decode error. -/
theorem read_miss_and_corrupt_witness :
    read store0 sampleEntry.toSearchQuery = .ok none
    ∧ read corruptStore sampleEntry.toSearchQuery = .error .unpicklingError :=
  ⟨(read_miss_and_corrupt store0 sampleEntry.toSearchQuery
      "SEARCH_HISTORY:w:['e']:c:en:0:1:" sampleEntry.toSearchQuery
      (by decide)).1 (by decide),
   (read_miss_and_corrupt corruptStore sampleEntry.toSearchQuery
      "SEARCH_HISTORY:w:['e']:c:en:0:1:" sampleEntry.toSearchQuery
      (by decide)).2.2 [1] (by decide) (by decide) (by decide)⟩

/-! ### C5: sequence-number allocation on save -/

/-- C5 counterexample: re-saving the very same entry allocates a fresh
sequence number — the fingerprint's score moves from 1 to 2, so a saved
fingerprint does not keep a stable sequence number. -/
theorem save_reallocates_counterexample :
    getA stSaved.index "SEARCH_HISTORY:w:['e']:c:en:0:1:" = some 1
    ∧ getA stSaved2.index "SEARCH_HISTORY:w:['e']:c:en:0:1:" = some 2
    ∧ stSaved2.counter = 2 := by
  refine ⟨?_, ?_, ?_⟩ <;> decide

/-- The ordering-index invariant: every score was drawn from the counter, and
distinct fingerprints carry distinct scores. -/
def IndexInv (st : Store) : Prop :=
  (∀ p ∈ st.index, p.2 ≤ st.counter)
  ∧ (∀ p ∈ st.index, ∀ q ∈ st.index, p.1 ≠ q.1 → p.2 ≠ q.2)

theorem setA_mem {α : Type} (l : List (String × α)) (k : String) (v : α) :
    ∀ p ∈ setA l k v, p = (k, v) ∨ p ∈ l := by
  induction l with
  | nil => simp [setA]
  | cons q rest ih =>
    intro p hp
    by_cases h : k = q.1
    · rw [setA, if_pos h, List.mem_cons] at hp
      rcases hp with hp | hp
      · exact .inl hp
      · exact .inr (List.mem_cons_of_mem _ hp)
    · rw [setA, if_neg h, List.mem_cons] at hp
      rcases hp with hp | hp
      · exact .inr (by simp [hp])
      · rcases ih p hp with h2 | h2
        · exact .inl h2
        · exact .inr (List.mem_cons_of_mem _ h2)

/-- C5 amended: `save` always draws a fresh sequence number from the atomic
counter and assigns it to the entry's fingerprint — re-saving an existing
fingerprint therefore re-scores it with the new, strictly larger number
rather than keeping the old one — and distinct fingerprints never share a
sequence number. -/
theorem save_fresh_seq (st : Store) (d : SearchData) (k : String)
    (d' : SearchData) (st' : Store) (hk : make_keyD d = some (k, d'))
    (hs : save st d = .ok st') (hinv : IndexInv st) :
    st'.counter = st.counter + 1
    ∧ getA st'.index k = some (st.counter + 1)
    ∧ IndexInv st' := by
  have hs' : st' = Store.mk (st.counter + 1) (setA st.index k (st.counter + 1))
      (setA st.data k (pickle_dumps d')) := by
    simp only [save, hk] at hs
    exact (Except.ok.inj hs).symm
  subst hs'
  refine ⟨rfl, getA_setA_same _ _ _, ?_, ?_⟩
  · intro p hp
    rcases setA_mem _ _ _ p hp with h | h
    · rw [h]
    · exact Nat.le_succ_of_le (hinv.1 p h)
  · intro p hp q hq hne
    rcases setA_mem _ _ _ p hp with h1 | h1 <;>
      rcases setA_mem _ _ _ q hq with h2 | h2
    · rw [h1, h2] at hne; exact absurd rfl hne
    · have := hinv.1 q h2
      rw [h1]; omega
    · have := hinv.1 p h1
      rw [h2]; omega
    · exact hinv.2 p h1 q h2 hne

/-- C5 witness: the first save of the sample entry gets sequence number 1 and
establishes the invariant. -/
theorem save_fresh_seq_witness :
    stSaved.counter = 0 + 1
    ∧ getA stSaved.index "SEARCH_HISTORY:w:['e']:c:en:0:1:" = some (0 + 1)
    ∧ IndexInv stSaved :=
  save_fresh_seq store0 sampleEntry "SEARCH_HISTORY:w:['e']:c:en:0:1:"
    sampleEntry stSaved (by decide) (by decide)
    ⟨by intro p hp; simp [store0] at hp, by intro p hp; simp [store0] at hp⟩

/-! ### C6: purity of the fingerprint encoder -/

/-- The sample query with an absent time range. -/
def q6 : SearchQuery :=
  { query := "w", engines := ["e"], categories := ["c"], language := "en",
    safesearch := 0, pageno := 1, time_range := none }

/-- C6 counterexample: computing the fingerprint of a query with
`time_range = None` mutates the query — the query object coming out of
`make_key` has `time_range = ""` and so differs from the input — and on an
empty category list the computation does not return at all (`IndexError`
from `categories[0]`), so it is not total either. -/
theorem make_key_mutates_counterexample :
    make_key q6
      = some ("SEARCH_HISTORY:w:['e']:c:en:0:1:",
          { q6 with time_range := some "" })
    ∧ ({ q6 with time_range := some "" } : SearchQuery) ≠ q6
    ∧ make_key { q6 with categories := [] } = none := by
  refine ⟨?_, ?_, ?_⟩ <;> decide

theorem normQuery_spec (q : SearchQuery) :
    normQuery q = { q with time_range := some (q.time_range.getD "") } := by
  unfold normQuery
  cases hq : q.time_range with
  | none => simp [hq]
  | some s =>
    simp only [hq, Option.getD_some]
    rw [if_neg (by simp [hq])]
    cases q
    simp_all

/-- C6 amended: on a query with a non-empty category list the fingerprint
computation succeeds and changes nothing except normalising an absent time
range to `""`; on an empty category list it raises `IndexError` instead of
returning. -/
theorem make_key_total_mod_norm (q : SearchQuery) :
    (q.categories = [] → make_key q = none)
    ∧ (q.categories ≠ [] → ∃ k, make_key q
        = some (k, { q with time_range := some (q.time_range.getD "") })) := by
  obtain ⟨qq, qe, qc, ql, qs, qp, qt⟩ := q
  constructor
  · intro h
    subst h
    cases qt <;> rfl
  · intro h
    cases qc with
    | nil => exact absurd rfl h
    | cons c cs => cases qt <;> exact ⟨_, rfl⟩

/-- C6 witness: on the sample query (non-empty categories, absent time range)
the fingerprint computation succeeds with only the time range normalised. -/
theorem make_key_total_mod_norm_witness :
    ∃ k, make_key q6 = some (k, { q6 with time_range := some "" }) :=
  (make_key_total_mod_norm q6).2 (by decide)

/-! ### C2: batch reads after 25 saves -/

/-- The i-th of 25 distinct saved entries. -/
def batchEntry (i : Nat) : SearchData :=
  { query := "q" ++ pyNatStr i, engines := ["google"],
    categories := ["general"], language := "en", safesearch := 0, pageno := 1,
    time_range := some "", results := ["r"], paging := false,
    results_number := 0, answers := [], corrections := [], infoboxes := [],
    suggestions := [], unresponsive_engines := [] }

/-- The store after saving 25 distinct queries in order. -/
def st25 : Store :=
  (List.range 25).foldl
    (fun st i => ((save st (batchEntry i)).toOption).getD st) store0

/-- C2: after exactly 25 saves of distinct queries, the first batch holds the
21 queries at offsets 0–20 (`ZRANGE x (x+20)` is end-inclusive), in ascending
sequence-number order, not the 20 the interface promises; the second batch
holds the 5 queries at offsets 20–24, overlapping the first batch at
offset 20. -/
theorem get_twenty_queries_off_by_one :
    get_twenty_queries st25 0
      = .ok ((List.range 21).map fun i => (batchEntry i).toSearchQuery)
    ∧ get_twenty_queries st25 20
      = .ok ((List.range 5).map fun i => (batchEntry (20 + i)).toSearchQuery) := by
  constructor <;> decide

/-! ### C8: update replaces exactly the output fields -/

/-- Save `e`, refresh with `e2`, then read back `e`'s query — the scenario of
the update contract. -/
def saveUpdateRead (st : Store) (e e2 : SearchData) :
    Except Err (Option SearchData) :=
  match save st e with
  | .error er => .error er
  | .ok st1 =>
    match update st1 e2 with
    | .error er => .error er
    | .ok st2 => read st2 e.toSearchQuery

/-- An entry with an absent time range, saved and then refreshed. -/
def e8 : SearchData :=
  { query := "w", engines := ["e"], categories := ["c"], language := "en",
    safesearch := 0, pageno := 1, time_range := none, results := ["r1"],
    paging := false, results_number := 0, answers := [], corrections := [],
    infoboxes := [], suggestions := [], unresponsive_engines := [] }

/-- The same identity as `e8` with refreshed outputs. -/
def e8b : SearchData := { e8 with results := ["r2"] }

/-- C8 counterexample: after `save e8` and `update e8b`, reading back returns
an entry whose `time_range` identity field is `""`, not `e8`'s original
`None` — the identity fields do not all come back unchanged. -/
theorem update_identity_counterexample :
    saveUpdateRead store0 e8 e8b
      = .ok (some { e8 with results := ["r2"], time_range := some "" })
    ∧ some "" ≠ e8.time_range := by
  constructor <;> decide

theorem pickle_dumps_ne_nil (d : SearchData) : pickle_dumps d ≠ [] := by
  simp [pickle_dumps, encStr]

/-- The record `update` writes back: `base` with the eight output fields
copied from `d`, exactly the eight assignments in the source. -/
def mergeOutputs (base d : SearchData) : SearchData :=
  { base with
    results := d.results, paging := d.paging,
    results_number := d.results_number, answers := d.answers,
    corrections := d.corrections, infoboxes := d.infoboxes,
    suggestions := d.suggestions,
    unresponsive_engines := d.unresponsive_engines }

/-- Helper round-trip equation used inside other proofs. -/
theorem pickle_loads_dumps (d : SearchData) :
    pickle_loads (pickle_dumps d) = some d := by
  have h := pickle_roundtrip_rest d []
  rwa [List.append_nil] at h

/-- Reading a query whose fingerprint key holds a freshly pickled entry
yields that entry. -/
theorem read_key_dumps (st : Store) (q : SearchQuery) (k : String)
    (q' : SearchQuery) (hk : make_key q = some (k, q')) (dd : SearchData)
    (hdata : getA st.data k = some (pickle_dumps dd)) :
    read st q = .ok (some dd) := by
  simp only [read, hk, hdata]
  rw [if_neg (pickle_dumps_ne_nil dd), pickle_loads_dumps]

/-- C8 amended: saving `e` and then updating with an `e2` that has the same
query identity makes a read of `e`'s query return an entry carrying `e2`'s
eight output fields and the identity fields of `e` as `save` normalised them
(`time_range = None` stored as `""`, every other identity field unchanged). -/
theorem save_update_read (st : Store) (e e2 : SearchData) (k : String)
    (e' : SearchData) (hk : make_keyD e = some (k, e'))
    (hq : e2.toSearchQuery = e.toSearchQuery) :
    saveUpdateRead st e e2 = .ok (some (mergeOutputs e' e2)) := by
  have hq' : make_key e.toSearchQuery = some (k, e'.toSearchQuery) :=
    make_keyD_toSearchQuery e k e' hk
  have hidem : make_key e'.toSearchQuery = some (k, e'.toSearchQuery) :=
    make_key_idem _ _ _ hq'
  have hk2 : make_keyD e2
      = some (k, { e2 with toSearchQuery := e'.toSearchQuery }) := by
    unfold make_keyD
    rw [hq, hq']
    rfl
  have hsave : save st e = .ok (Store.mk (st.counter + 1)
      (setA st.index k (st.counter + 1))
      (setA st.data k (pickle_dumps e'))) := by
    simp only [save, hk]
  have hread1 : read (Store.mk (st.counter + 1)
      (setA st.index k (st.counter + 1)) (setA st.data k (pickle_dumps e')))
      e'.toSearchQuery = .ok (some e') :=
    read_key_dumps _ _ k e'.toSearchQuery hidem e' (getA_setA_same _ _ _)
  have hupd : update (Store.mk (st.counter + 1)
      (setA st.index k (st.counter + 1)) (setA st.data k (pickle_dumps e')))
      e2 = .ok (Store.mk (st.counter + 1)
        (setA st.index k (st.counter + 1))
        (setA (setA st.data k (pickle_dumps e')) k
          (pickle_dumps (mergeOutputs e' e2)))) := by
    simp only [update, hk2, hread1]
    rfl
  simp only [saveUpdateRead, hsave, hupd]
  exact read_key_dumps _ _ k e'.toSearchQuery hq' _ (getA_setA_same _ _ _)

/-- A refresh of the sample entry carrying new results. -/
def sampleEntry2 : SearchData := { sampleEntry with results := ["x"] }

/-- C8 witness: saving the sample entry and refreshing it with new results
reads back the sample identity with the refreshed outputs. -/
theorem save_update_read_witness :
    saveUpdateRead store0 sampleEntry sampleEntry2
      = .ok (some (mergeOutputs sampleEntry sampleEntry2)) :=
  save_update_read store0 sampleEntry sampleEntry2
    "SEARCH_HISTORY:w:['e']:c:en:0:1:" sampleEntry (by decide) (by decide)

/-! ### C1: fingerprint injectivity

The delimiter-joined key cannot be injective in general (the counterexample
below exhibits a collision), but on queries whose fields avoid the delimiter
and quote characters the seven identity components can be recovered from the
key.  The development below proves exactly that. -/

/-- Two queries that differ in primary category and language but share a
fingerprint, because `:` inside a field shifts the field boundaries. -/
def qColl1 : SearchQuery :=
  { query := "a", engines := ["e"], categories := ["c:x"], language := "y",
    safesearch := 0, pageno := 1, time_range := some "" }

/-- The colliding partner of `qColl1`. -/
def qColl2 : SearchQuery :=
  { query := "a", engines := ["e"], categories := ["c"], language := "x:y",
    safesearch := 0, pageno := 1, time_range := some "" }

/-- C1 counterexample: `qColl1` and `qColl2` differ in two identity fields
(primary category and language) yet `make_key` gives them the same
fingerprint. -/
theorem make_key_collision_counterexample :
    qColl1 ≠ qColl2
    ∧ qColl1.categories.headD "" ≠ qColl2.categories.headD ""
    ∧ qColl1.language ≠ qColl2.language
    ∧ (make_key qColl1).map Prod.fst = (make_key qColl2).map Prod.fst := by
  refine ⟨?_, ?_, ?_, ?_⟩ <;> decide

/-- Splitting at the first occurrence of a marker character: two
decompositions around a marker absent from both prefixes coincide. -/
theorem append_marker_inj (c : Char) (a : List Char) :
    ∀ b u v : List Char, c ∉ a → c ∉ b →
      a ++ c :: u = b ++ c :: v → a = b ∧ u = v := by
  induction a with
  | nil =>
    intro b u v _ hb h
    cases b with
    | nil => simpa using h
    | cons x xs =>
      simp only [List.nil_append, List.cons_append, List.cons.injEq] at h
      exact absurd (h.1 ▸ List.mem_cons_self x xs) hb
  | cons y ys ih =>
    intro b u v ha hb h
    cases b with
    | nil =>
      simp only [List.cons_append, List.nil_append, List.cons.injEq] at h
      obtain ⟨h1, _⟩ := h
      subst h1
      exact absurd (List.mem_cons_self y ys) ha
    | cons x xs =>
      simp only [List.cons_append, List.cons.injEq] at h
      obtain ⟨h1, h2⟩ := h
      subst h1
      have hys : c ∉ ys := fun hm => ha (List.mem_cons_of_mem _ hm)
      have hxs : c ∉ xs := fun hm => hb (List.mem_cons_of_mem _ hm)
      obtain ⟨hab, huv⟩ := ih xs u v hys hxs h2
      exact ⟨by rw [hab], huv⟩

/-! #### Decimal rendering: digit-only and injective -/

theorem pyDigit_ne_colon (d : Nat) (h : d < 10) : pyDigit d ≠ ':' := by
  interval_cases d <;> decide

theorem pyDigit_toNat (d : Nat) (h : d < 10) : (pyDigit d).toNat = 48 + d := by
  interval_cases d <;> decide

theorem natChars_colonFree (n : Nat) : ':' ∉ natChars n := by
  induction n using Nat.strong_induction_on with
  | _ n ih =>
    rw [natChars_eq]
    by_cases h : n < 10
    · simp only [h, if_true, List.mem_singleton]
      exact Ne.symm (pyDigit_ne_colon n h)
    · have hdiv : n / 10 < n := Nat.div_lt_self (by omega) (by omega)
      simp only [h, if_false, List.mem_append, List.mem_singleton]
      push_neg
      exact ⟨ih (n / 10) hdiv,
        Ne.symm (pyDigit_ne_colon (n % 10) (Nat.mod_lt n (by omega)))⟩

/-- The numeric value read back from a digit string. -/
def decValue (l : List Char) : Nat :=
  l.foldl (fun a ch => 10 * a + (ch.toNat - 48)) 0

theorem decValue_append (l : List Char) (ch : Char) :
    decValue (l ++ [ch]) = 10 * decValue l + (ch.toNat - 48) := by
  simp [decValue, List.foldl_append]

theorem decValue_natChars (n : Nat) : decValue (natChars n) = n := by
  induction n using Nat.strong_induction_on with
  | _ n ih =>
    rw [natChars_eq]
    by_cases h : n < 10
    · simp [h, decValue, pyDigit_toNat n h]
    · have hdiv : n / 10 < n := Nat.div_lt_self (by omega) (by omega)
      rw [if_neg h, decValue_append, ih (n / 10) hdiv,
        pyDigit_toNat (n % 10) (Nat.mod_lt n (by omega))]
      omega

theorem natChars_inj (m n : Nat) (h : natChars m = natChars n) : m = n := by
  rw [← decValue_natChars m, ← decValue_natChars n, h]

/-! #### Python list rendering: delimiter-free and injective on plain
strings -/

theorem quote_data : ("'" : String).data = ['\''] := rfl

theorem empty_data : ("" : String).data = [] := rfl

theorem wrapQ_append_data (s : String) (t : String) :
    (wrapQ s ++ t).data = '\'' :: (s.data ++ '\'' :: t.data) := by
  simp [wrapQ, String.data_append, quote_data, List.append_assoc]

theorem comma_space_data (t : String) :
    ((", " : String) ++ t).data = ',' :: ' ' :: t.data := by
  rw [String.data_append]
  rfl

theorem pyStrInner_cons (s : String) (rest : List String) :
    pyStrInner (s :: rest)
      = wrapQ s ++ (if rest = [] then "" else ", " ++ pyStrInner rest) := by
  cases rest with
  | nil =>
    apply String.ext
    simp [pyStrInner, String.data_append, empty_data]
  | cons t ts =>
    apply String.ext
    simp [pyStrInner, String.data_append, List.append_assoc]

theorem pyStrInner_colonFree (xs : List String)
    (h : ∀ s ∈ xs, ':' ∉ s.data) : ':' ∉ (pyStrInner xs).data := by
  induction xs with
  | nil => simp [pyStrInner, empty_data]
  | cons s rest ih =>
    have hs := h s (List.mem_cons_self _ _)
    have hrest : ∀ u ∈ rest, ':' ∉ u.data :=
      fun u hu => h u (List.mem_cons_of_mem _ hu)
    rw [pyStrInner_cons]
    cases rest with
    | nil =>
      rw [if_pos rfl, wrapQ_append_data]
      simp [List.mem_cons, List.mem_append, empty_data, hs]
    | cons t ts =>
      rw [if_neg (by simp), wrapQ_append_data, comma_space_data]
      have hinner := ih hrest
      simp [List.mem_cons, List.mem_append, hs, hinner]

theorem pyStrInner_inj (xs : List String) :
    ∀ ys : List String, (∀ s ∈ xs, '\'' ∉ s.data) →
      (∀ s ∈ ys, '\'' ∉ s.data) →
      (pyStrInner xs).data = (pyStrInner ys).data → xs = ys := by
  induction xs with
  | nil =>
    intro ys _ _ h
    cases ys with
    | nil => rfl
    | cons t ts =>
      rw [pyStrInner_cons, wrapQ_append_data] at h
      simp [pyStrInner, empty_data] at h
  | cons s rest ih =>
    intro ys hx hy h
    cases ys with
    | nil =>
      rw [pyStrInner_cons, wrapQ_append_data] at h
      simp [pyStrInner, empty_data] at h
    | cons t ts =>
      rw [pyStrInner_cons, pyStrInner_cons, wrapQ_append_data,
        wrapQ_append_data] at h
      simp only [List.cons.injEq, true_and] at h
      obtain ⟨hst, htail⟩ := append_marker_inj '\'' s.data _ _ _
        (hx s (List.mem_cons_self _ _)) (hy t (List.mem_cons_self _ _)) h
      have hs : s = t := String.ext hst
      subst hs
      cases rest with
      | nil =>
        cases ts with
        | nil => rfl
        | cons w ws =>
          rw [if_pos rfl, if_neg (by simp), comma_space_data] at htail
          simp [empty_data] at htail
      | cons w ws =>
        cases ts with
        | nil =>
          rw [if_neg (by simp), if_pos rfl, comma_space_data] at htail
          simp [empty_data] at htail
        | cons w2 ws2 =>
          rw [if_neg (by simp), if_neg (by simp), comma_space_data,
            comma_space_data] at htail
          simp only [List.cons.injEq, true_and] at htail
          have hrest := ih (w2 :: ws2)
            (fun u hu => hx u (List.mem_cons_of_mem _ hu))
            (fun u hu => hy u (List.mem_cons_of_mem _ hu))
            htail
          rw [hrest]

theorem pyStrList_data (xs : List String) :
    (pyStrList xs).data = '[' :: ((pyStrInner xs).data ++ [']']) := by
  simp [pyStrList, String.data_append]

theorem pyStrList_colonFree (xs : List String)
    (h : ∀ s ∈ xs, ':' ∉ s.data) : ':' ∉ (pyStrList xs).data := by
  rw [pyStrList_data]
  have := pyStrInner_colonFree xs h
  simp_all

theorem pyStrList_inj (xs ys : List String)
    (hx : ∀ s ∈ xs, '\'' ∉ s.data) (hy : ∀ s ∈ ys, '\'' ∉ s.data)
    (h : pyStrList xs = pyStrList ys) : xs = ys := by
  have hd : (pyStrList xs).data = (pyStrList ys).data := by rw [h]
  rw [pyStrList_data, pyStrList_data] at hd
  simp only [List.cons.injEq, true_and] at hd
  exact pyStrInner_inj xs ys hx hy (List.append_cancel_right hd)

/-! #### Decomposing the key -/

theorem colon_data : (":" : String).data = [':'] := rfl

theorem keyString_data (q : SearchQuery) (c : String) :
    (keyString q c).data
      = ("SEARCH_HISTORY:" : String).data
        ++ (q.query.data ++ ':' :: ((pyStrList q.engines).data
        ++ ':' :: (c.data ++ ':' :: (q.language.data
        ++ ':' :: (natChars q.safesearch
        ++ ':' :: (natChars q.pageno
        ++ ':' :: (q.time_range.getD "").data)))))) := by
  simp [keyString, String.data_append, colon_data, List.append_assoc, pyNatStr]

/-- What a successful `make_key` tells about its input and output. -/
theorem make_key_some (q : SearchQuery) (k : String) (q' : SearchQuery)
    (h : make_key q = some (k, q')) :
    q' = normQuery q
    ∧ q.categories = (q.categories.headD "") :: q.categories.tail
    ∧ k = keyString (normQuery q) (q.categories.headD "") := by
  unfold make_key at h
  cases hc : (normQuery q).categories with
  | nil => rw [hc] at h; simp at h
  | cons c rest =>
    rw [hc] at h
    simp only [Option.some.injEq, Prod.mk.injEq] at h
    obtain ⟨hk, hq⟩ := h
    have hcats : q.categories = c :: rest := by
      have hspec := normQuery_spec q
      rw [hspec] at hc
      exact hc
    refine ⟨hq.symm, ?_, ?_⟩
    · rw [hcats]; rfl
    · rw [hcats]
      exact hk.symm

/-- C1 amended: on queries whose string-valued identity fields are free of
the `:` delimiter (and whose engine names are additionally free of the quote
character that Python's list rendering uses), equal fingerprints force all
seven identity components to agree — the query string, the engine list, the
primary category, the language, the safe-search level, the page number and
the normalised time range.  Without that restriction the encoding collides
(see the counterexample). -/
theorem make_key_inj_plain (q1 q2 : SearchQuery) (k1 k2 : String)
    (q1' q2' : SearchQuery)
    (h1 : make_key q1 = some (k1, q1')) (h2 : make_key q2 = some (k2, q2'))
    (hq1 : ':' ∉ q1.query.data) (hq2 : ':' ∉ q2.query.data)
    (hl1 : ':' ∉ q1.language.data) (hl2 : ':' ∉ q2.language.data)
    (hc1 : ':' ∉ (q1.categories.headD "").data)
    (hc2 : ':' ∉ (q2.categories.headD "").data)
    (he1 : ∀ s ∈ q1.engines, ':' ∉ s.data ∧ '\'' ∉ s.data)
    (he2 : ∀ s ∈ q2.engines, ':' ∉ s.data ∧ '\'' ∉ s.data)
    (hkk : k1 = k2) :
    q1.query = q2.query ∧ q1.engines = q2.engines
    ∧ q1.categories.headD "" = q2.categories.headD ""
    ∧ q1.language = q2.language ∧ q1.safesearch = q2.safesearch
    ∧ q1.pageno = q2.pageno
    ∧ q1.time_range.getD "" = q2.time_range.getD "" := by
  obtain ⟨-, -, hk1⟩ := make_key_some q1 k1 q1' h1
  obtain ⟨-, -, hk2⟩ := make_key_some q2 k2 q2' h2
  have hkey : keyString (normQuery q1) (q1.categories.headD "")
      = keyString (normQuery q2) (q2.categories.headD "") := by
    rw [← hk1, ← hk2, hkk]
  have hdata := congrArg String.data hkey
  rw [keyString_data, keyString_data] at hdata
  have hnq1 : (normQuery q1).query = q1.query := by rw [normQuery_spec]
  have hnq2 : (normQuery q2).query = q2.query := by rw [normQuery_spec]
  have hne1 : (normQuery q1).engines = q1.engines := by rw [normQuery_spec]
  have hne2 : (normQuery q2).engines = q2.engines := by rw [normQuery_spec]
  have hnl1 : (normQuery q1).language = q1.language := by rw [normQuery_spec]
  have hnl2 : (normQuery q2).language = q2.language := by rw [normQuery_spec]
  have hns1 : (normQuery q1).safesearch = q1.safesearch := by
    rw [normQuery_spec]
  have hns2 : (normQuery q2).safesearch = q2.safesearch := by
    rw [normQuery_spec]
  have hnp1 : (normQuery q1).pageno = q1.pageno := by rw [normQuery_spec]
  have hnp2 : (normQuery q2).pageno = q2.pageno := by rw [normQuery_spec]
  have hnt1 : (normQuery q1).time_range.getD "" = q1.time_range.getD "" := by
    rw [normQuery_spec]
    rfl
  have hnt2 : (normQuery q2).time_range.getD "" = q2.time_range.getD "" := by
    rw [normQuery_spec]
    rfl
  rw [hnq1, hnq2, hne1, hne2, hnl1, hnl2, hns1, hns2, hnp1, hnp2, hnt1,
    hnt2] at hdata
  have hdata2 := List.append_cancel_left hdata
  obtain ⟨e1, hdata3⟩ := append_marker_inj ':' q1.query.data _ _ _
    hq1 hq2 hdata2
  obtain ⟨e2, hdata4⟩ := append_marker_inj ':' (pyStrList q1.engines).data _ _ _
    (pyStrList_colonFree _ (fun s hs => (he1 s hs).1))
    (pyStrList_colonFree _ (fun s hs => (he2 s hs).1)) hdata3
  obtain ⟨e3, hdata5⟩ := append_marker_inj ':' (q1.categories.headD "").data
    _ _ _ hc1 hc2 hdata4
  obtain ⟨e4, hdata6⟩ := append_marker_inj ':' q1.language.data _ _ _
    hl1 hl2 hdata5
  obtain ⟨e5, hdata7⟩ := append_marker_inj ':' (natChars q1.safesearch) _ _ _
    (natChars_colonFree _) (natChars_colonFree _) hdata6
  obtain ⟨e6, e7⟩ := append_marker_inj ':' (natChars q1.pageno) _ _ _
    (natChars_colonFree _) (natChars_colonFree _) hdata7
  exact ⟨String.ext e1,
    pyStrList_inj _ _ (fun s hs => (he1 s hs).2) (fun s hs => (he2 s hs).2)
      (String.ext e2),
    String.ext e3, String.ext e4, natChars_inj _ _ e5, natChars_inj _ _ e6,
    String.ext e7⟩

/-- C1 witness: the amended injectivity theorem applied at a concrete plain
query, with every delimiter-freedom hypothesis discharged by evaluation. -/
theorem make_key_inj_plain_witness :
    q6.query = q6.query ∧ q6.engines = q6.engines
    ∧ q6.categories.headD "" = q6.categories.headD ""
    ∧ q6.language = q6.language ∧ q6.safesearch = q6.safesearch
    ∧ q6.pageno = q6.pageno
    ∧ q6.time_range.getD "" = q6.time_range.getD "" :=
  make_key_inj_plain q6 q6 "SEARCH_HISTORY:w:['e']:c:en:0:1:"
    "SEARCH_HISTORY:w:['e']:c:en:0:1:"
    { q6 with time_range := some "" } { q6 with time_range := some "" }
    (by decide) (by decide) (by decide) (by decide) (by decide) (by decide)
    (by decide) (by decide) (by decide) (by decide) rfl

end Searx
